import Mathlib

/-!
Verification development for the `gloop` modal terminal editor
(`src/main.rs`): the modal input dispatcher (`App::handle_keyevent`),
the command interpreter (`App::parse_command`) and the application loop
(`App::run`) are shallowly embedded over byte strings (`List Nat`,
each entry a UTF-8 byte).  The external `tui-textarea` widget, the
`base64` crate, `jsonxf` and the pieces of the Rust standard library
the program calls are modelled where the embedded code observes them.
-/

namespace Gloop

/-! ## Byte-string helpers -/

/-- Splitting a byte text into its `0x0A`-separated lines, mirroring how
`tui_textarea::TextArea` stores its content as a vector of lines
(`TextArea::lines`): the empty text is the single empty line. -/
def splitNl : List Nat → List (List Nat)
  | [] => [[]]
  | b :: rest =>
    let r := splitNl rest
    if b = 10 then [] :: r
    else (b :: r.headD []) :: r.tail

/-- Joining lines with `0x0A` separators, mirroring `lines().join("\n")`. -/
def joinNl : List (List Nat) → List Nat
  | [] => []
  | [l] => l
  | l :: ls => l ++ 10 :: joinNl ls

/-- Modelled from the Rust standard library: the byte length of the Unicode
white-space character starting at the head of the byte string, `0` when the
head is not white space.  The UTF-8 encodings of the 25 `White_Space` code
points are recognized (ASCII, U+0085, U+00A0, U+1680, U+2000–U+200A,
U+2028, U+2029, U+202F, U+205F, U+3000). -/
def wsLen : List Nat → Nat
  | [] => 0
  | b :: rest =>
    if b = 9 ∨ b = 10 ∨ b = 11 ∨ b = 12 ∨ b = 13 ∨ b = 32 then 1
    else if b = 194 then
      match rest with
      | b1 :: _ => if b1 = 133 ∨ b1 = 160 then 2 else 0
      | [] => 0
    else if b = 225 then
      match rest with
      | b1 :: b2 :: _ => if b1 = 154 ∧ b2 = 128 then 3 else 0
      | _ => 0
    else if b = 226 then
      match rest with
      | b1 :: b2 :: _ =>
        if b1 = 128 ∧ ((128 ≤ b2 ∧ b2 ≤ 138) ∨ b2 = 168 ∨ b2 = 169 ∨ b2 = 175) then 3
        else if b1 = 129 ∧ b2 = 159 then 3 else 0
      | _ => 0
    else if b = 227 then
      match rest with
      | b1 :: b2 :: _ => if b1 = 128 ∧ b2 = 128 then 3 else 0
      | _ => 0
    else 0

/-- Fuel-driven worker for `splitWs`; the fuel is the byte length, and every
step consumes at least one byte. -/
def splitWsAux : Nat → List Nat → List Nat → List (List Nat)
  | 0, cur, _ => if cur.isEmpty then [] else [cur.reverse]
  | _ + 1, cur, [] => if cur.isEmpty then [] else [cur.reverse]
  | fuel + 1, cur, b :: rest =>
    let k := wsLen (b :: rest)
    if k = 0 then splitWsAux fuel (b :: cur) rest
    else (if cur.isEmpty then [] else [cur.reverse]) ++ splitWsAux fuel [] (rest.drop (k - 1))

/-- Modelled from the Rust standard library: `str::split_whitespace`
over the UTF-8 bytes of the string — the maximal runs of non-white-space
bytes. -/
def splitWs (l : List Nat) : List (List Nat) := splitWsAux l.length [] l

/-- `split_whitespace().next().unwrap_or_default()`. -/
def firstTok (l : List Nat) : List Nat := (splitWs l).headD []

/-- `split_whitespace().nth(1).unwrap_or_default()`. -/
def secondTok (l : List Nat) : List Nat := (splitWs l).getD 1 []

/-! ## Base64 (model of the `base64` crate's `BASE64_STANDARD` engine) -/

/-- The standard base64 alphabet: 6-bit value to ASCII code. -/
def encTbl (i : Nat) : Nat :=
  if i < 26 then 65 + i
  else if i < 52 then 97 + (i - 26)
  else if i < 62 then 48 + (i - 52)
  else if i = 62 then 43
  else 47

/-- Inverse alphabet: ASCII code to 6-bit value, `none` outside the
alphabet (in particular for the pad byte `=`). -/
def decTbl (c : Nat) : Option Nat :=
  if 65 ≤ c ∧ c ≤ 90 then some (c - 65)
  else if 97 ≤ c ∧ c ≤ 122 then some (c - 71)
  else if 48 ≤ c ∧ c ≤ 57 then some (c + 4)
  else if c = 43 then some 62
  else if c = 47 then some 63
  else none

/-- Modelled from the `base64` crate: `BASE64_STANDARD.encode` over bytes,
with `=` (61) padding. -/
def b64encode : List Nat → List Nat
  | [] => []
  | [a] => [encTbl (a / 4), encTbl (a % 4 * 16), 61, 61]
  | [a, b] => [encTbl (a / 4), encTbl (a % 4 * 16 + b / 16), encTbl (b % 16 * 4), 61]
  | a :: b :: c :: rest =>
    encTbl (a / 4) :: encTbl (a % 4 * 16 + b / 16) :: encTbl (b % 16 * 4 + c / 64) ::
      encTbl (c % 64) :: b64encode rest

/-- Modelled from the `base64` crate: strict `BASE64_STANDARD.decode` —
the input must be a sequence of 4-byte groups; `=` padding is allowed only
at the very end, and trailing bits must be zero. -/
def b64decode : List Nat → Except Unit (List Nat)
  | [] => .ok []
  | c1 :: c2 :: c3 :: c4 :: rest =>
    match decTbl c1, decTbl c2 with
    | some d1, some d2 =>
      if c3 = 61 then
        if c4 = 61 ∧ rest = [] then
          if d2 % 16 = 0 then .ok [d1 * 4 + d2 / 16] else .error ()
        else .error ()
      else
        match decTbl c3 with
        | some d3 =>
          if c4 = 61 then
            if rest = [] then
              if d3 % 4 = 0 then .ok [d1 * 4 + d2 / 16, d2 % 16 * 16 + d3 / 4] else .error ()
            else .error ()
          else
            match decTbl c4 with
            | some d4 =>
              match b64decode rest with
              | .ok tail =>
                .ok ((d1 * 4 + d2 / 16) :: (d2 % 16 * 16 + d3 / 4) :: (d3 % 4 * 64 + d4) :: tail)
              | .error e => .error e
            | none => .error ()
        | none => .error ()
    | _, _ => .error ()
  | _ => .error ()

/-! ## UTF-8 validity (model of `String::from_utf8`'s check) -/

/-- Whether a byte is a UTF-8 continuation byte (`0x80`–`0xBF`). -/
def isContB (b : Nat) : Bool := 128 ≤ b && b < 192

/-- Modelled from the Rust standard library: validity of a byte sequence as
UTF-8 (what `String::from_utf8` checks): ASCII, 2–4 byte sequences with the
standard lead-byte ranges, no overlong forms, no surrogates, max U+10FFFF. -/
def validUtf8 : List Nat → Bool
  | [] => true
  | b :: rest =>
    if b < 128 then validUtf8 rest
    else if 194 ≤ b ∧ b ≤ 223 then
      match rest with
      | b1 :: rest2 => isContB b1 && validUtf8 rest2
      | [] => false
    else if b = 224 then
      match rest with
      | b1 :: b2 :: rest2 => (160 ≤ b1 && b1 < 192) && isContB b2 && validUtf8 rest2
      | _ => false
    else if (225 ≤ b ∧ b ≤ 236) ∨ b = 238 ∨ b = 239 then
      match rest with
      | b1 :: b2 :: rest2 => isContB b1 && isContB b2 && validUtf8 rest2
      | _ => false
    else if b = 237 then
      match rest with
      | b1 :: b2 :: rest2 => (128 ≤ b1 && b1 < 160) && isContB b2 && validUtf8 rest2
      | _ => false
    else if b = 240 then
      match rest with
      | b1 :: b2 :: b3 :: rest2 =>
        (144 ≤ b1 && b1 < 192) && isContB b2 && isContB b3 && validUtf8 rest2
      | _ => false
    else if 241 ≤ b ∧ b ≤ 243 then
      match rest with
      | b1 :: b2 :: b3 :: rest2 => isContB b1 && isContB b2 && isContB b3 && validUtf8 rest2
      | _ => false
    else if b = 244 then
      match rest with
      | b1 :: b2 :: b3 :: rest2 =>
        (128 ≤ b1 && b1 < 144) && isContB b2 && isContB b3 && validUtf8 rest2
      | _ => false
    else false

/-- UTF-8 encoding of a Unicode scalar value, used when a typed character
is inserted into a buffer. -/
def utf8EncodeChar (c : Nat) : List Nat :=
  if c < 128 then [c]
  else if c < 2048 then [192 + c / 64, 128 + c % 64]
  else if c < 65536 then [224 + c / 4096, 128 + c / 64 % 64, 128 + c % 64]
  else [240 + c / 262144, 128 + c / 4096 % 64, 128 + c / 64 % 64, 128 + c % 64]

/-! ## Key events (model of the `crossterm` event types the program matches) -/

/-- The key codes the dispatcher distinguishes; every other
`crossterm::event::KeyCode` is collapsed into `other`. -/
inductive KeyCode
  | char (c : Nat)
  | esc
  | enter
  | backspace
  | other (n : Nat)
deriving DecidableEq

/-- `crossterm::event::KeyEventKind`. -/
inductive KeyEventKind
  | press
  | repeat
  | release
deriving DecidableEq

/-- A key event: code, modifier bits (matched by every arm of the source with
`..`, hence never inspected) and kind. -/
structure KeyEventM where
  code : KeyCode
  modifiers : Nat
  kind : KeyEventKind
deriving DecidableEq

/-- A terminal event: a key event, or any other `crossterm::event::Event`
(resize, focus, mouse, paste), which the program's `handle_events`
wildcard-ignores. -/
inductive Event
  | key (k : KeyEventM)
  | other (n : Nat)
deriving DecidableEq

/-! ## The text-area widget (external collaborator)

Modelled from the spec's collaborator contract (§6): the widget owns the
text (here the UTF-8 bytes of the full content, lines separated by `0x0A`),
a cursor (a byte offset), an optional selection anchor, one clipboard
register and undo/redo stacks.  Styling (`set_block`, `set_cursor_style`,
…) has no semantic effect and is not modelled.  Cursor motions are
modelled coarsely — the spec leaves the widget's exact cursor arithmetic to
the external collaborator, and no theorem below depends on their precise
effect. -/

structure TextArea where
  text : List Nat
  cursor : Nat
  anchor : Option Nat
  clipboard : List Nat
  undoStack : List (List Nat × Nat)
  redoStack : List (List Nat × Nat)
deriving DecidableEq

/-- The slice of bytes in positions `[lo, hi)`. -/
def seg (l : List Nat) (lo hi : Nat) : List Nat := (l.take hi).drop lo

/-- Byte offset of the head of the line containing `c`. -/
def lineHeadPos (t : List Nat) (c : Nat) : Nat :=
  c - ((t.take c).reverse.takeWhile (fun b => b != 10)).length

/-- Byte offset of the end of the line containing `c`. -/
def lineEndPos (t : List Nat) (c : Nat) : Nat :=
  c + ((t.drop c).takeWhile (fun b => b != 10)).length

/-- Byte length of the UTF-8 character whose lead byte is `b`. -/
def charLenB (b : Nat) : Nat :=
  if b < 128 then 1 else if b < 224 then 2 else if b < 240 then 3 else 4

/-- Next character boundary after `c` (clamped to the text length). -/
def nextPos (t : List Nat) (c : Nat) : Nat := min (c + charLenB (t.getD c 0)) t.length

/-- Previous character boundary before `c`. -/
def prevPos (t : List Nat) (c : Nat) : Nat :=
  if c = 0 then 0 else c - 1 - ((t.take c).reverse.takeWhile isContB).length

/-- ASCII white space, used by the coarse word-motion model. -/
def isWsB (b : Nat) : Bool := b = 32 || b = 9 || b = 10 || b = 13

/-- Coarse model of a forward word motion. -/
def wordFwdPos (t : List Nat) (c : Nat) : Nat :=
  let r := t.drop c
  let k1 := (r.takeWhile (fun b => !(isWsB b))).length
  let k2 := ((r.drop k1).takeWhile isWsB).length
  c + k1 + k2

/-- Coarse model of a backward word motion. -/
def wordBackPos (t : List Nat) (c : Nat) : Nat :=
  let r := (t.take c).reverse
  let k1 := (r.takeWhile isWsB).length
  let k2 := ((r.drop k1).takeWhile (fun b => !(isWsB b))).length
  c - k1 - k2

/-- Coarse model of moving one line up (to the same column when it exists). -/
def upPos (t : List Nat) (c : Nat) : Nat :=
  let h := lineHeadPos t c
  if h = 0 then c
  else
    let ph := lineHeadPos t (h - 1)
    min (ph + (c - h)) (h - 1)

/-- Coarse model of moving one line down. -/
def downPos (t : List Nat) (c : Nat) : Nat :=
  let e := lineEndPos t c
  if t.length ≤ e then c
  else
    let nh := e + 1
    min (nh + (c - lineHeadPos t c)) (lineEndPos t nh)

/-- The `tui_textarea::CursorMove` variants the program uses. -/
inductive CursorMove
  | forward
  | back
  | up
  | down
  | wordForward
  | wordBack
  | toEnd
  | toHead
deriving DecidableEq

/-- The lines of the widget (`TextArea::lines`). -/
def TextArea.lines (ta : TextArea) : List (List Nat) := splitNl ta.text

/-- Record the current text and cursor on the undo stack. -/
def TextArea.pushUndo (ta : TextArea) : TextArea :=
  { ta with undoStack := (ta.text, ta.cursor) :: ta.undoStack, redoStack := [] }

/-- Insert bytes at the cursor. -/
def TextArea.insertAt (ta : TextArea) (s : List Nat) : TextArea :=
  { ta with text := ta.text.take ta.cursor ++ s ++ ta.text.drop ta.cursor,
            cursor := ta.cursor + s.length }

/-- `TextArea::move_cursor`. -/
def TextArea.moveCursor (ta : TextArea) (m : CursorMove) : TextArea :=
  { ta with cursor :=
      match m with
      | .forward => nextPos ta.text ta.cursor
      | .back => prevPos ta.text ta.cursor
      | .up => upPos ta.text ta.cursor
      | .down => downPos ta.text ta.cursor
      | .wordForward => wordFwdPos ta.text ta.cursor
      | .wordBack => wordBackPos ta.text ta.cursor
      | .toEnd => lineEndPos ta.text ta.cursor
      | .toHead => lineHeadPos ta.text ta.cursor }

/-- `TextArea::undo`. -/
def TextArea.undo (ta : TextArea) : TextArea :=
  match ta.undoStack with
  | [] => ta
  | (t, c) :: rest =>
    { ta with text := t, cursor := c, undoStack := rest,
              redoStack := (ta.text, ta.cursor) :: ta.redoStack, anchor := none }

/-- `TextArea::redo`. -/
def TextArea.redo (ta : TextArea) : TextArea :=
  match ta.redoStack with
  | [] => ta
  | (t, c) :: rest =>
    { ta with text := t, cursor := c, redoStack := rest,
              undoStack := (ta.text, ta.cursor) :: ta.undoStack, anchor := none }

/-- `TextArea::start_selection`. -/
def TextArea.startSelection (ta : TextArea) : TextArea := { ta with anchor := some ta.cursor }

/-- `TextArea::cancel_selection`. -/
def TextArea.cancelSelection (ta : TextArea) : TextArea := { ta with anchor := none }

/-- `TextArea::select_all`: anchor at the start, cursor at the very end. -/
def TextArea.selectAll (ta : TextArea) : TextArea :=
  { ta with anchor := some 0, cursor := ta.text.length }

/-- `TextArea::copy`: the selected bytes go to the clipboard register. -/
def TextArea.copy (ta : TextArea) : TextArea :=
  match ta.anchor with
  | none => ta
  | some a =>
    { ta with clipboard := seg ta.text (min a ta.cursor) (max a ta.cursor), anchor := none }

/-- `TextArea::cut`: remove the selected bytes into the clipboard register. -/
def TextArea.cut (ta : TextArea) : TextArea :=
  match ta.anchor with
  | none => ta
  | some a =>
    let lo := min a ta.cursor
    let hi := max a ta.cursor
    if lo = hi then { ta with anchor := none }
    else
      { ta.pushUndo with text := ta.text.take lo ++ ta.text.drop hi, cursor := lo,
                         clipboard := seg ta.text lo hi, anchor := none }

/-- `TextArea::paste` of the clipboard register. -/
def TextArea.paste (ta : TextArea) : TextArea :=
  if ta.clipboard.isEmpty then ta else ta.pushUndo.insertAt ta.clipboard

/-- `TextArea::insert_newline`. -/
def TextArea.insertNewline (ta : TextArea) : TextArea := ta.pushUndo.insertAt [10]

/-- `TextArea::insert_str`. -/
def TextArea.insertStr (ta : TextArea) (s : List Nat) : TextArea :=
  if s.isEmpty then ta else ta.pushUndo.insertAt s

/-- Delete the character before the cursor. -/
def TextArea.deleteBack (ta : TextArea) : TextArea :=
  if ta.cursor = 0 then ta
  else
    let p := prevPos ta.text ta.cursor
    { ta.pushUndo with text := ta.text.take p ++ ta.text.drop ta.cursor, cursor := p }

/-- `TextArea::delete_line_by_head`: delete from the head of the current
line to the cursor (the deleted bytes go to the clipboard register). -/
def TextArea.deleteLineByHead (ta : TextArea) : TextArea :=
  let h := lineHeadPos ta.text ta.cursor
  if h = ta.cursor then ta
  else
    { ta.pushUndo with text := ta.text.take h ++ ta.text.drop ta.cursor, cursor := h,
                       clipboard := seg ta.text h ta.cursor }

/-- Modelled from the spec: `TextArea::input`, the widget's raw text-input
handler the dispatcher forwards unmatched events to.  Release events are
ignored by the widget; character, newline and backspace inputs edit the
text; other keys leave the widget unchanged. -/
def TextArea.input (ta : TextArea) (e : KeyEventM) : TextArea :=
  if e.kind = .release then ta
  else
    match e.code with
    | .char c => ta.pushUndo.insertAt (utf8EncodeChar c)
    | .enter => ta.pushUndo.insertAt [10]
    | .backspace => ta.deleteBack
    | _ => ta

/-! ## Application state and modes (`src/main.rs`) -/

/-- `VisualType`. -/
inductive VisualType
  | character
  | line
  | block
deriving DecidableEq

/-- `Mode`. -/
inductive Mode
  | insert
  | normal
  | visual (v : VisualType)
  | command
deriving DecidableEq

/-- `App`: exit flag, main editor buffer, command-line buffer, mode.
(`MAX_HISTORIES = usize::MAX`: the modelled undo stacks are unbounded.) -/
structure AppState where
  should_exit : Bool
  editor : TextArea
  commandline : TextArea
  mode : Mode
deriving DecidableEq

/-- The errors `parse_command` can produce with `bail!` or `?`. -/
inductive CmdErr
  | moreLines
  | unknownCommand (line : List Nat)
  | base64Decode
  | invalidUtf8
deriving DecidableEq

/-- Result of one event-handling step: `Ok` with the new state, `Err`
propagated with the state as already mutated when the `?` fired, or a
panic (`.unwrap()` on an `Err`). -/
inductive StepResult
  | ok (st : AppState)
  | err (e : CmdErr) (st : AppState)
  | panicked
deriving DecidableEq

/-- The bytes of `"q"`. -/
def qCmd : List Nat := [113]

/-- The bytes of `"json"`. -/
def jsonCmd : List Nat := [106, 115, 111, 110]

/-- The bytes of `"format"`. -/
def formatCmd : List Nat := [102, 111, 114, 109, 97, 116]

/-- The bytes of `"base64"`. -/
def b64Cmd : List Nat := [98, 97, 115, 101, 54, 52]

/-- The bytes of `"encode"`. -/
def encodeCmd : List Nat := [101, 110, 99, 111, 100, 101]

/-- The bytes of `"decode"`. -/
def decodeCmd : List Nat := [100, 101, 99, 111, 100, 101]

/-- The bytes of the command line `"json format"`. -/
def jsonFormatLine : List Nat := [106, 115, 111, 110, 32, 102, 111, 114, 109, 97, 116]

/-- The bytes of the command line `"base64 encode"`. -/
def encodeLine : List Nat := [98, 97, 115, 101, 54, 52, 32, 101, 110, 99, 111, 100, 101]

/-- The bytes of the command line `"base64 decode"`. -/
def decodeLine : List Nat := [98, 97, 115, 101, 54, 52, 32, 100, 101, 99, 111, 100, 101]

/-- `App::parse_command`.  The parameter `pp` stands for the external
`jsonxf::pretty_print` collaborator (modelled from the spec: it
pretty-prints the text as JSON and fails exactly when the text is not
valid JSON); the source calls `.unwrap()` on its result, so an `Err` from
it is a panic.  `bail!` and `?` propagate an error while keeping the
mutations already applied to `self`. -/
def parse_command (pp : List Nat → Except (List Nat) (List Nat)) (st : AppState) : StepResult :=
  let lines := st.commandline.lines
  if lines.length > 1 then .err .moreLines st
  else
    match lines.head? with
    | none => .ok st
    | some line =>
      let tok := firstTok line
      if tok = qCmd then .ok { st with should_exit := true }
      else if tok = jsonCmd then
        if secondTok line = formatCmd then
          let uglyJson := joinNl st.editor.lines
          let ed := st.editor.selectAll.cut
          match pp uglyJson with
          | .ok prettyJson => .ok { st with editor := ed.insertStr prettyJson }
          | .error _ => .panicked
        else .err (.unknownCommand line) st
      else if tok = b64Cmd then
        if secondTok line = encodeCmd then
          let text := joinNl st.editor.lines
          let ed := st.editor.selectAll.cut
          .ok { st with editor := ed.insertStr (b64encode text) }
        else if secondTok line = decodeCmd then
          let text := joinNl st.editor.lines
          let ed := st.editor.selectAll.cut
          match b64decode text with
          | .error _ => .err .base64Decode { st with editor := ed }
          | .ok decoded =>
            if validUtf8 decoded then .ok { st with editor := ed.insertStr decoded }
            else .err .invalidUtf8 { st with editor := ed }
        else .err (.unknownCommand line) st
      else .err (.unknownCommand line) st

/-- The `Mode::Insert` arm of `App::handle_keyevent`. -/
def stepInsert (st : AppState) (e : KeyEventM) : AppState :=
  if e.code = .esc ∧ e.kind = .press then { st with mode := .normal }
  else { st with editor := st.editor.input e }

/-- The `Mode::Normal` arm of `App::handle_keyevent` (arms in source order). -/
def stepNormal (st : AppState) (e : KeyEventM) : AppState :=
  if e.code = .char 117 ∧ (e.kind = .press ∨ e.kind = .repeat) then
    { st with editor := st.editor.undo }
  else if e.code = .char 85 ∧ (e.kind = .press ∨ e.kind = .repeat) then
    { st with editor := st.editor.redo }
  else if e.code = .char 105 ∧ e.kind = .press then { st with mode := .insert }
  else if e.code = .char 97 ∧ e.kind = .press then
    { st with editor := st.editor.moveCursor .forward, mode := .insert }
  else if e.code = .char 118 ∧ e.kind = .press then
    { st with editor := st.editor.startSelection, mode := .visual .character }
  else if (e.code = .char 59 ∨ e.code = .char 32) ∧ e.kind = .press then
    { st with mode := .command }
  else if e.code = .char 112 ∧ e.kind = .press then { st with editor := st.editor.paste }
  else if e.code = .char 104 ∧ (e.kind = .press ∨ e.kind = .repeat) then
    { st with editor := st.editor.moveCursor .back }
  else if e.code = .char 106 ∧ (e.kind = .press ∨ e.kind = .repeat) then
    { st with editor := st.editor.moveCursor .down }
  else if e.code = .char 107 ∧ (e.kind = .press ∨ e.kind = .repeat) then
    { st with editor := st.editor.moveCursor .up }
  else if e.code = .char 108 ∧ (e.kind = .press ∨ e.kind = .repeat) then
    { st with editor := st.editor.moveCursor .forward }
  else if e.code = .char 98 ∧ (e.kind = .press ∨ e.kind = .repeat) then
    { st with editor := st.editor.moveCursor .wordBack }
  else if e.code = .char 119 ∧ (e.kind = .press ∨ e.kind = .repeat) then
    { st with editor := st.editor.moveCursor .wordForward }
  else if e.code = .char 69 ∧ e.kind = .press then
    { st with editor := st.editor.moveCursor .toEnd }
  else if e.code = .char 48 ∧ e.kind = .press then
    { st with editor := st.editor.moveCursor .toHead }
  else if e.code = .char 73 ∧ e.kind = .press then
    { st with editor := st.editor.moveCursor .toHead, mode := .insert }
  else if e.code = .char 65 ∧ e.kind = .press then
    { st with editor := st.editor.moveCursor .toEnd, mode := .insert }
  else if e.code = .char 111 ∧ e.kind = .press then
    { st with editor := (st.editor.moveCursor .toEnd).insertNewline, mode := .insert }
  else if e.code = .char 79 ∧ e.kind = .press then
    { st with editor := ((st.editor.moveCursor .up).moveCursor .toEnd).insertNewline,
              mode := .insert }
  else st

/-- Clearing a buffer the way the source does on `Esc`/`Enter` in Command
mode: cursor to line end, then delete to line head ("doing it this way
preserves the history"). -/
def clearLine (ta : TextArea) : TextArea := (ta.moveCursor .toEnd).deleteLineByHead

/-- The `Mode::Command` arm of `App::handle_keyevent`.  On `Enter` the
source runs `self.parse_command()?` *before* clearing the command line and
returning to Normal, so an error propagates with neither done. -/
def stepCommand (pp : List Nat → Except (List Nat) (List Nat)) (st : AppState)
    (e : KeyEventM) : StepResult :=
  if e.code = .esc ∧ e.kind = .press then
    .ok { st with commandline := clearLine st.commandline, mode := .normal }
  else if e.code = .enter ∧ e.kind = .press then
    match parse_command pp st with
    | .ok st1 => .ok { st1 with commandline := clearLine st1.commandline, mode := .normal }
    | .err er st1 => .err er st1
    | .panicked => .panicked
  else .ok { st with commandline := st.commandline.input e }

/-- The `Mode::Visual` arm of `App::handle_keyevent` (arms in source order;
directional and word motions act only for `VisualType::Character`). -/
def stepVisual (st : AppState) (vt : VisualType) (e : KeyEventM) : AppState :=
  if e.code = .esc ∧ e.kind = .press then
    { st with editor := st.editor.cancelSelection, mode := .normal }
  else if e.code = .char 121 ∧ e.kind = .press then
    { st with editor := st.editor.copy, mode := .normal }
  else if e.code = .char 100 ∧ e.kind = .press then
    { st with editor := st.editor.cut, mode := .normal }
  else if e.code = .char 99 ∧ e.kind = .press then
    { st with editor := st.editor.cut, mode := .insert }
  else if e.code = .char 104 ∧ e.kind = .press then
    match vt with
    | .character => { st with editor := st.editor.moveCursor .back }
    | .line => st
    | .block => st
  else if e.code = .char 106 ∧ e.kind = .press then
    match vt with
    | .character => { st with editor := st.editor.moveCursor .down }
    | .line => st
    | .block => st
  else if e.code = .char 107 ∧ e.kind = .press then
    match vt with
    | .character => { st with editor := st.editor.moveCursor .up }
    | .line => st
    | .block => st
  else if e.code = .char 108 ∧ e.kind = .press then
    match vt with
    | .character => { st with editor := st.editor.moveCursor .forward }
    | .line => st
    | .block => st
  else if e.code = .char 69 ∧ e.kind = .press then
    { st with editor := st.editor.moveCursor .toEnd }
  else if e.code = .char 48 ∧ e.kind = .press then
    { st with editor := st.editor.moveCursor .toHead }
  else if e.code = .char 98 ∧ e.kind = .press then
    match vt with
    | .character => { st with editor := st.editor.moveCursor .wordBack }
    | .line => st
    | .block => st
  else if e.code = .char 119 ∧ e.kind = .press then
    match vt with
    | .character => { st with editor := st.editor.moveCursor .wordForward }
    | .line => st
    | .block => st
  else st

/-- `App::handle_keyevent`: dispatch on the current mode. -/
def handle_keyevent (pp : List Nat → Except (List Nat) (List Nat)) (st : AppState)
    (e : KeyEventM) : StepResult :=
  match st.mode with
  | .insert => .ok (stepInsert st e)
  | .normal => .ok (stepNormal st e)
  | .command => stepCommand pp st e
  | .visual vt => .ok (stepVisual st vt e)

/-- `App::handle_events`: key events are dispatched, every other terminal
event is ignored.  (`wrap_err` only decorates the propagated error's
message.) -/
def handle_events (pp : List Nat → Except (List Nat) (List Nat)) (st : AppState) :
    Event → StepResult
  | .key k => handle_keyevent pp st k
  | .other _ => .ok st

/-- Result of running the application loop on a finite script of incoming
events: normal exit, loop aborted by a propagated error, process death by
panic, or still blocked waiting for input. -/
inductive RunResult
  | exited (st : AppState)
  | failed (e : CmdErr) (st : AppState)
  | crashed
  | pending (st : AppState)
deriving DecidableEq

/-- `App::run`: `while !self.should_exit { update; draw; handle_events()? }`
over a finite event script.  `update` and `draw` only touch styling and the
screen and are not modelled. -/
def run (pp : List Nat → Except (List Nat) (List Nat)) (st : AppState)
    (evs : List Event) : RunResult :=
  if st.should_exit then .exited st
  else
    match evs with
    | [] => .pending st
    | ev :: rest =>
      match handle_events pp st ev with
      | .ok st1 => run pp st1 rest
      | .err e st1 => .failed e st1
      | .panicked => .crashed

/-! ## Concrete instances used by the witnesses and counterexamples -/

/-- A pretty-printer collaborator that rejects every input (any text that is
not valid JSON is such an input for `jsonxf::pretty_print`). -/
def ppErr : List Nat → Except (List Nat) (List Nat) := fun _ => .error []

/-- A fresh text area holding the given bytes with the given cursor. -/
def mkTA (t : List Nat) (c : Nat) : TextArea := ⟨t, c, none, [], [], []⟩

/-- A character key press without modifiers. -/
def keyPress (c : Nat) : KeyEventM := ⟨.char c, 0, .press⟩

/-- The `Enter` key press with modifier bits `m`. -/
def enterKey (m : Nat) : KeyEventM := ⟨.enter, m, .press⟩

/-- The `Esc` key press with modifier bits `m`. -/
def escKey (m : Nat) : KeyEventM := ⟨.esc, m, .press⟩

/-- `App::default()`: empty buffers, `should_exit = false`, `Mode::Insert`. -/
def initialApp : AppState := ⟨false, mkTA [] 0, mkTA [] 0, .insert⟩

/-- Command mode, main buffer `"{"` (invalid JSON), command line
`"json format"`. -/
def stJsonBad : AppState := ⟨false, mkTA [123] 0, mkTA jsonFormatLine 0, .command⟩

/-- Command mode, main buffer `"/w=="` (valid base64 decoding to the
non-UTF-8 byte `0xFF`), command line `"base64 decode"`. -/
def stDecodeNonUtf8 : AppState := ⟨false, mkTA [47, 119, 61, 61] 0, mkTA decodeLine 0, .command⟩

/-- Command mode, main buffer `"!"` (not valid base64), command line
`"base64 decode"`. -/
def stDecodeNotB64 : AppState := ⟨false, mkTA [33] 0, mkTA decodeLine 0, .command⟩

/-- Command mode, command line `"x"` (an unknown command). -/
def stUnknown : AppState := ⟨false, mkTA [104] 0, mkTA [120] 1, .command⟩

/-- Command mode, command line `"ab"` with the cursor after it. -/
def stCmdAb : AppState := ⟨false, mkTA [104] 0, mkTA [97, 98] 2, .command⟩

/-- Command mode with two lines (`"a\n b"`-shaped content) queued in the
command buffer. -/
def stMultiline : AppState := ⟨false, mkTA [104] 0, mkTA [97, 10, 98] 0, .command⟩

/-- A Normal-mode state with main buffer `"hi"`. -/
def stNormalHi : AppState := ⟨false, mkTA [104, 105] 1, mkTA [] 0, .normal⟩

/-- Command mode, main buffer `"hi"`, command line `"base64 encode"`. -/
def stEncodeHi : AppState := ⟨false, mkTA [104, 105] 0, mkTA encodeLine 0, .command⟩

/-- A `Visual(Line)` state with main buffer `"hi"`. -/
def stVisualLine : AppState := ⟨false, mkTA [104, 105] 1, mkTA [] 0, .visual .line⟩

/-- Command mode, command line `"zz"` (an unknown command). -/
def stUnknownZz : AppState := ⟨false, mkTA [104] 0, mkTA [122, 122] 0, .command⟩

/-- Command mode with an arbitrary main buffer, used to exercise the
should-exit transition characterization. -/
def stCmdW9 : AppState := ⟨false, mkTA [104] 0, mkTA [113] 1, .command⟩

/-- Command mode with an empty command line. -/
def stEmptyCmd : AppState := ⟨false, mkTA [104] 0, mkTA [] 0, .command⟩

/-! ## General lemmas -/

theorem splitNl_ne_nil (t : List Nat) : splitNl t ≠ [] := by
  cases t with
  | nil => simp [splitNl]
  | cons b rest =>
    simp only [splitNl]
    split <;> simp

theorem joinNl_splitNl (t : List Nat) : joinNl (splitNl t) = t := by
  induction t with
  | nil => rfl
  | cons b rest ih =>
    simp only [splitNl]
    obtain ⟨x, xs, hr⟩ : ∃ x xs, splitNl rest = x :: xs := by
      cases h : splitNl rest with
      | nil => exact absurd h (splitNl_ne_nil rest)
      | cons x xs => exact ⟨x, xs, rfl⟩
    rw [hr] at ih ⊢
    split
    · next hb =>
      subst hb
      simpa [joinNl] using ih
    · next hb =>
      cases xs with
      | nil => simpa [joinNl] using ih
      | cons y ys => simpa [joinNl] using ih

theorem decTbl_encTbl : ∀ i : Nat, i < 64 → decTbl (encTbl i) = some i := by decide

theorem encTbl_ne_pad : ∀ i : Nat, i < 64 → encTbl i ≠ 61 := by decide

theorem b64_roundtrip_aux :
    ∀ n bs, List.length bs ≤ n → (∀ b ∈ bs, b < 256) →
      b64decode (b64encode bs) = .ok bs := by
  intro n
  induction n with
  | zero =>
    intro bs hlen _
    have hnil : bs = [] := List.length_eq_zero.mp (Nat.le_zero.mp hlen)
    subst hnil
    rfl
  | succ n ih =>
    intro bs hlen hb
    rcases bs with _ | ⟨a, _ | ⟨b, _ | ⟨c, rest⟩⟩⟩
    · rfl
    · have ha : a < 256 := hb a (by simp)
      have e1 := decTbl_encTbl (a / 4) (by omega)
      have e2 := decTbl_encTbl (a % 4 * 16) (by omega)
      have hz : a % 4 * 16 % 16 = 0 := by omega
      simp [b64encode, b64decode, e1, e2, hz]
      omega
    · have ha : a < 256 := hb a (by simp)
      have hbb : b < 256 := hb b (by simp)
      have e1 := decTbl_encTbl (a / 4) (by omega)
      have e2 := decTbl_encTbl (a % 4 * 16 + b / 16) (by omega)
      have e3 := decTbl_encTbl (b % 16 * 4) (by omega)
      have ne3 := encTbl_ne_pad (b % 16 * 4) (by omega)
      have hz : b % 16 * 4 % 4 = 0 := by omega
      simp [b64encode, b64decode, e1, e2, e3, ne3, hz]
      omega
    · have ha : a < 256 := hb a (by simp)
      have hbb : b < 256 := hb b (by simp)
      have hc : c < 256 := hb c (by simp)
      have e1 := decTbl_encTbl (a / 4) (by omega)
      have e2 := decTbl_encTbl (a % 4 * 16 + b / 16) (by omega)
      have e3 := decTbl_encTbl (b % 16 * 4 + c / 64) (by omega)
      have e4 := decTbl_encTbl (c % 64) (by omega)
      have ne3 := encTbl_ne_pad (b % 16 * 4 + c / 64) (by omega)
      have ne4 := encTbl_ne_pad (c % 64) (by omega)
      have htail : b64decode (b64encode rest) = .ok rest := by
        refine ih rest (by simp at hlen; omega) ?_
        intro x hx
        exact hb x (by simp [hx])
      simp [b64encode, b64decode, e1, e2, e3, e4, ne3, ne4, htail]
      omega

theorem b64_roundtrip (bs : List Nat) (hb : ∀ b ∈ bs, b < 256) :
    b64decode (b64encode bs) = .ok bs :=
  b64_roundtrip_aux bs.length bs le_rfl hb

theorem headD_some {l : List (List Nat)} {x : List Nat} (h : l.head? = some x) :
    l.headD [] = x := by
  cases l <;> simp_all

theorem takeWhile_ne10 (l : List Nat) (h : (10 : Nat) ∉ l) :
    l.takeWhile (fun b => b != 10) = l := by
  induction l with
  | nil => rfl
  | cons b rest ih =>
    simp only [List.mem_cons, not_or] at h
    have hb : b ≠ 10 := fun hb => h.1 hb.symm
    simp [List.takeWhile_cons, bne_iff_ne, hb, ih h.2]

/-! ## Lemmas about the dispatcher and interpreter -/

theorem handle_enter (pp : List Nat → Except (List Nat) (List Nat)) (st : AppState) (m : Nat)
    (h1 : st.mode = .command) :
    handle_keyevent pp st (enterKey m) =
      match parse_command pp st with
      | .ok st1 => .ok { st1 with commandline := clearLine st1.commandline, mode := .normal }
      | .err er st1 => .err er st1
      | .panicked => .panicked := by
  simp only [handle_keyevent, h1, stepCommand, enterKey]
  simp

theorem handle_esc_command (pp : List Nat → Except (List Nat) (List Nat)) (st : AppState)
    (m : Nat) (h1 : st.mode = .command) :
    handle_keyevent pp st (escKey m) =
      .ok { st with commandline := clearLine st.commandline, mode := .normal } := by
  simp only [handle_keyevent, h1, stepCommand, escKey]
  simp

theorem parse_moreLines (pp : List Nat → Except (List Nat) (List Nat)) (st : AppState)
    (h : 1 < (splitNl st.commandline.text).length) :
    parse_command pp st = .err .moreLines st := by
  simp only [parse_command, TextArea.lines]
  rw [if_pos h]

theorem parse_json_format (pp : List Nat → Except (List Nat) (List Nat)) (st : AppState)
    (h2 : st.commandline.text = jsonFormatLine) :
    parse_command pp st =
      match pp (joinNl (splitNl st.editor.text)) with
      | .ok prettyJson => .ok { st with editor := (st.editor.selectAll.cut).insertStr prettyJson }
      | .error _ => .panicked := by
  simp only [parse_command, TextArea.lines, h2]
  rfl

theorem parse_b64_encode (pp : List Nat → Except (List Nat) (List Nat)) (st : AppState)
    (h2 : st.commandline.text = encodeLine) :
    parse_command pp st =
      .ok { st with editor :=
        (st.editor.selectAll.cut).insertStr (b64encode (joinNl (splitNl st.editor.text))) } := by
  simp only [parse_command, TextArea.lines, h2]
  rfl

theorem parse_b64_decode (pp : List Nat → Except (List Nat) (List Nat)) (st : AppState)
    (h2 : st.commandline.text = decodeLine) :
    parse_command pp st =
      match b64decode (joinNl (splitNl st.editor.text)) with
      | .error _ => .err .base64Decode { st with editor := st.editor.selectAll.cut }
      | .ok decoded =>
        if validUtf8 decoded then
          .ok { st with editor := (st.editor.selectAll.cut).insertStr decoded }
        else .err .invalidUtf8 { st with editor := st.editor.selectAll.cut } := by
  simp only [parse_command, TextArea.lines, h2]
  rfl

theorem parse_empty_line (pp : List Nat → Except (List Nat) (List Nat)) (st : AppState)
    (h2 : st.commandline.text = []) :
    parse_command pp st = .err (.unknownCommand []) st := by
  simp only [parse_command, TextArea.lines, h2]
  rfl

theorem selectAll_cut_text (ta : TextArea) : (ta.selectAll.cut).text = [] := by
  simp only [TextArea.selectAll, TextArea.cut]
  split
  · next h =>
    simp only [Nat.min_def, Nat.max_def] at h
    simp at h
    simp [List.length_eq_zero.mp h.symm]
  · next h =>
    simp

theorem selectAll_cut_cursor (ta : TextArea) : (ta.selectAll.cut).cursor = 0 := by
  simp only [TextArea.selectAll, TextArea.cut]
  split
  · next h =>
    simp only [Nat.min_def, Nat.max_def] at h
    simp at h
    simp [h.symm]
  · next h =>
    simp

theorem selectAll_cut_clipboard (ta : TextArea) (h : ta.text ≠ []) :
    (ta.selectAll.cut).clipboard = ta.text := by
  simp only [TextArea.selectAll, TextArea.cut]
  split
  · next h0 =>
    simp only [Nat.min_def, Nat.max_def] at h0
    simp at h0
    exact absurd (List.length_eq_zero.mp h0.symm) h
  · next h0 =>
    simp [seg]

theorem cutAll_insertStr_text (ta : TextArea) (s : List Nat) :
    ((ta.selectAll.cut).insertStr s).text = s := by
  by_cases hs : s.isEmpty
  · simp [TextArea.insertStr, hs, selectAll_cut_text, List.isEmpty_iff.mp hs]
  · simp [TextArea.insertStr, hs, TextArea.insertAt, TextArea.pushUndo,
      selectAll_cut_text, selectAll_cut_cursor]

theorem clearLine_text (ta : TextArea) (hc : ta.cursor ≤ ta.text.length)
    (hn : (10 : Nat) ∉ ta.text) : (clearLine ta).text = [] := by
  have hdrop : (10 : Nat) ∉ ta.text.drop ta.cursor := fun hm => hn (List.mem_of_mem_drop hm)
  have hend : lineEndPos ta.text ta.cursor = ta.text.length := by
    simp [lineEndPos, takeWhile_ne10 _ hdrop]
    omega
  have htake : (10 : Nat) ∉ ta.text.reverse := by simpa using hn
  have hhead : lineHeadPos ta.text ta.text.length = 0 := by
    simp [lineHeadPos, List.take_length, takeWhile_ne10 _ htake]
  simp only [clearLine, TextArea.moveCursor, TextArea.deleteLineByHead, hend, hhead]
  split
  · next h0 =>
    simp_all
    simp [List.length_eq_zero.mp h0.symm]
  · next h0 =>
    simp [TextArea.pushUndo]

theorem clearLine_undo (ta : TextArea) :
    ∃ pre, (clearLine ta).undoStack = pre ++ ta.undoStack := by
  simp only [clearLine, TextArea.moveCursor, TextArea.deleteLineByHead]
  split
  · exact ⟨[], rfl⟩
  · exact ⟨[(ta.text, lineEndPos ta.text ta.cursor)], rfl⟩

theorem stepInsert_exit (st : AppState) (e : KeyEventM) :
    (stepInsert st e).should_exit = st.should_exit := by
  unfold stepInsert
  simp only [apply_ite AppState.should_exit, ite_self]

theorem stepNormal_exit (st : AppState) (e : KeyEventM) :
    (stepNormal st e).should_exit = st.should_exit := by
  unfold stepNormal
  simp only [apply_ite AppState.should_exit, ite_self]

theorem stepVisual_exit (st : AppState) (vt : VisualType) (e : KeyEventM) :
    (stepVisual st vt e).should_exit = st.should_exit := by
  unfold stepVisual
  cases vt <;> simp only [apply_ite AppState.should_exit, ite_self]

theorem parse_exit_ok (pp : List Nat → Except (List Nat) (List Nat)) (st st1 : AppState)
    (h : parse_command pp st = .ok st1) :
    st1.should_exit = st.should_exit ∨
      (st1 = { st with should_exit := true } ∧
        firstTok ((splitNl st.commandline.text).headD []) = qCmd) := by
  simp only [parse_command, TextArea.lines] at h
  split at h
  · exact StepResult.noConfusion h
  · split at h
    · cases h
      exact Or.inl rfl
    · next line heq =>
      split at h
      · next hq =>
        cases h
        exact Or.inr ⟨rfl, by rw [headD_some heq]; exact hq⟩
      · split at h
        · split at h
          · split at h
            · cases h
              exact Or.inl rfl
            · exact StepResult.noConfusion h
          · exact StepResult.noConfusion h
        · split at h
          · split at h
            · cases h
              exact Or.inl rfl
            · split at h
              · split at h
                · exact StepResult.noConfusion h
                · split at h
                  · cases h
                    exact Or.inl rfl
                  · exact StepResult.noConfusion h
              · exact StepResult.noConfusion h
          · exact StepResult.noConfusion h

theorem parse_err_fields (pp : List Nat → Except (List Nat) (List Nat)) (st st1 : AppState)
    (e : CmdErr) (h : parse_command pp st = .err e st1) :
    st1.should_exit = st.should_exit ∧ st1.mode = st.mode ∧ st1.commandline = st.commandline := by
  simp only [parse_command, TextArea.lines] at h
  split at h
  · cases h
    exact ⟨rfl, rfl, rfl⟩
  · split at h
    · exact StepResult.noConfusion h
    · split at h
      · exact StepResult.noConfusion h
      · split at h
        · split at h
          · split at h
            · exact StepResult.noConfusion h
            · exact StepResult.noConfusion h
          · cases h
            exact ⟨rfl, rfl, rfl⟩
        · split at h
          · split at h
            · exact StepResult.noConfusion h
            · split at h
              · split at h
                · cases h
                  exact ⟨rfl, rfl, rfl⟩
                · split at h
                  · exact StepResult.noConfusion h
                  · cases h
                    exact ⟨rfl, rfl, rfl⟩
              · cases h
                exact ⟨rfl, rfl, rfl⟩
          · cases h
            exact ⟨rfl, rfl, rfl⟩

theorem parse_unknown_eq (pp : List Nat → Except (List Nat) (List Nat)) (st st1 : AppState)
    (l : List Nat) (h : parse_command pp st = .err (.unknownCommand l) st1) : st1 = st := by
  simp only [parse_command, TextArea.lines] at h
  split at h
  · cases h
  · split at h
    · exact StepResult.noConfusion h
    · split at h
      · exact StepResult.noConfusion h
      · split at h
        · split at h
          · split at h
            · exact StepResult.noConfusion h
            · exact StepResult.noConfusion h
          · cases h
            rfl
        · split at h
          · split at h
            · exact StepResult.noConfusion h
            · split at h
              · split at h
                · cases h
                · split at h
                  · exact StepResult.noConfusion h
                  · cases h
              · cases h
                rfl
          · cases h
            rfl

theorem handle_exit_change (pp : List Nat → Except (List Nat) (List Nat)) (st : AppState)
    (ev : Event) (st1 : AppState)
    (h : handle_events pp st ev = .ok st1 ∨ ∃ e, handle_events pp st ev = .err e st1)
    (hne : st1.should_exit ≠ st.should_exit) :
    st.should_exit = false ∧ st1.should_exit = true ∧ st.mode = .command ∧
      (∃ k, ev = Event.key k ∧ k.code = .enter ∧ k.kind = .press) ∧
      firstTok ((splitNl st.commandline.text).headD []) = qCmd := by
  cases ev with
  | other n =>
    rcases h with h | ⟨e, h⟩
    · cases h
      exact absurd rfl hne
    · exact StepResult.noConfusion h
  | key k =>
    cases hm : st.mode with
    | insert =>
      rcases h with h | ⟨e, h⟩ <;> simp only [handle_events, handle_keyevent, hm] at h
      · cases h
        exact absurd (stepInsert_exit st k) hne
      · exact StepResult.noConfusion h
    | normal =>
      rcases h with h | ⟨e, h⟩ <;> simp only [handle_events, handle_keyevent, hm] at h
      · cases h
        exact absurd (stepNormal_exit st k) hne
      · exact StepResult.noConfusion h
    | visual vt =>
      rcases h with h | ⟨e, h⟩ <;> simp only [handle_events, handle_keyevent, hm] at h
      · cases h
        exact absurd (stepVisual_exit st vt k) hne
      · exact StepResult.noConfusion h
    | command =>
      rcases h with h | ⟨e, h⟩ <;>
        simp only [handle_events, handle_keyevent, hm, stepCommand] at h
      · by_cases hesc : k.code = .esc ∧ k.kind = .press
        · rw [if_pos hesc] at h
          cases h
          exact absurd rfl hne
        · rw [if_neg hesc] at h
          by_cases hkey : k.code = .enter ∧ k.kind = .press
          · rw [if_pos hkey] at h
            cases hpc : parse_command pp st with
            | ok st2 =>
              rw [hpc] at h
              have hp := parse_exit_ok pp st st2 hpc
              cases h
              rcases hp with hp | ⟨hp, hq⟩
              · exact absurd hp hne
              · subst hp
                have hf : st.should_exit = false := by
                  cases hse : st.should_exit
                  · rfl
                  · exact absurd (by simp [hse]) hne
                exact ⟨hf, rfl, rfl, ⟨k, rfl, hkey.1, hkey.2⟩, hq⟩
            | err e2 st2 =>
              rw [hpc] at h
              exact StepResult.noConfusion h
            | panicked =>
              rw [hpc] at h
              exact StepResult.noConfusion h
          · rw [if_neg hkey] at h
            cases h
            exact absurd rfl hne
      · by_cases hesc : k.code = .esc ∧ k.kind = .press
        · rw [if_pos hesc] at h
          exact StepResult.noConfusion h
        · rw [if_neg hesc] at h
          by_cases hkey : k.code = .enter ∧ k.kind = .press
          · rw [if_pos hkey] at h
            cases hpc : parse_command pp st with
            | ok st2 =>
              rw [hpc] at h
              exact StepResult.noConfusion h
            | err e2 st2 =>
              rw [hpc] at h
              have hfields := parse_err_fields pp st st2 e2 hpc
              cases h
              exact absurd hfields.1 hne
            | panicked =>
              rw [hpc] at h
              exact StepResult.noConfusion h
          · rw [if_neg hkey] at h
            exact StepResult.noConfusion h

theorem run_exited (pp : List Nat → Except (List Nat) (List Nat)) :
    ∀ (evs : List Event) (st stf : AppState), run pp st evs = .exited stf →
      stf.should_exit = true := by
  intro evs
  induction evs with
  | nil =>
    intro st stf h
    by_cases hse : st.should_exit = true
    · unfold run at h
      rw [if_pos hse] at h
      cases h
      exact hse
    · unfold run at h
      rw [if_neg hse] at h
      exact RunResult.noConfusion h
  | cons ev rest ih =>
    intro st stf h
    by_cases hse : st.should_exit = true
    · unfold run at h
      rw [if_pos hse] at h
      cases h
      exact hse
    · simp only [run, if_neg hse] at h
      cases hh : handle_events pp st ev with
      | ok st2 =>
        rw [hh] at h
        exact ih st2 stf h
      | err e2 st2 =>
        rw [hh] at h
        exact RunResult.noConfusion h
      | panicked =>
        rw [hh] at h
        exact RunResult.noConfusion h

theorem run_exits_now (pp : List Nat → Except (List Nat) (List Nat)) (st : AppState)
    (h : st.should_exit = true) : ∀ evs, run pp st evs = .exited st := by
  intro evs
  cases evs <;> (unfold run; rw [if_pos h])

/-! ## The claims -/

/-- C1: the spec claims `json format` on a main buffer that is not valid
JSON fails non-fatally without panicking; the code instead calls
`.unwrap()` on the pretty-printer's result, so whenever the pretty-printer
rejects the buffer text (i.e. the text is not valid JSON), pressing
`Enter` on the command `json format` panics. -/
theorem c1_json_format_invalid_panics (pp : List Nat → Except (List Nat) (List Nat))
    (st : AppState) (m : Nat) (msg : List Nat) (h1 : st.mode = .command)
    (h2 : st.commandline.text = jsonFormatLine)
    (h3 : pp (joinNl (splitNl st.editor.text)) = .error msg) :
    handle_keyevent pp st (enterKey m) = .panicked := by
  rw [handle_enter pp st m h1, parse_json_format pp st h2, h3]

/-- C1 witness: on the concrete state with main buffer `"{"` and command
line `"json format"`, the handler panics. -/
theorem c1_witness :
    stJsonBad.mode = .command ∧ stJsonBad.commandline.text = jsonFormatLine ∧
      ppErr (joinNl (splitNl stJsonBad.editor.text)) = .error [] ∧
      handle_keyevent ppErr stJsonBad (enterKey 0) = .panicked :=
  ⟨rfl, rfl, rfl, c1_json_format_invalid_panics ppErr stJsonBad 0 [] rfl rfl rfl⟩

/-- C2 counterexample: on the concrete state with main buffer `"/w=="`
(valid base64 decoding to the non-UTF-8 byte `0xFF`) and command line
`"base64 decode"`, the command fails with the UTF-8 decode error but the
main buffer is emptied, not left unchanged. -/
theorem c2_counterexample :
    ∃ st1, handle_keyevent ppErr stDecodeNonUtf8 (enterKey 0) = .err .invalidUtf8 st1 ∧
      st1.editor.text = [] ∧ st1.editor.text ≠ stDecodeNonUtf8.editor.text :=
  ⟨_, rfl, rfl, by decide⟩

/-- C2 (amended): `base64 decode` on a main buffer whose text is not valid
base64, or is valid base64 but decodes to non-UTF-8 bytes, fails with the
matching decode error (an `Err`, not a panic), but the main buffer is left
emptied rather than unchanged: select-all + cut runs before the decode
attempt, so on failure the original text is in the clipboard register (and
undo history), not in the buffer; the mode is still Command and the
command line untouched because the error propagates before the clear. -/
theorem c2_decode_failure_empties_buffer (pp : List Nat → Except (List Nat) (List Nat))
    (st : AppState) (m : Nat) (h1 : st.mode = .command)
    (h2 : st.commandline.text = decodeLine)
    (h3 : b64decode (joinNl (splitNl st.editor.text)) = .error () ∨
      ∃ ds, b64decode (joinNl (splitNl st.editor.text)) = .ok ds ∧ validUtf8 ds = false) :
    ∃ e st1, handle_keyevent pp st (enterKey m) = .err e st1 ∧
      (e = .base64Decode ∨ e = .invalidUtf8) ∧
      st1.editor.text = [] ∧ st1.editor.clipboard = st.editor.text ∧
      st1.mode = .command ∧ st1.commandline = st.commandline := by
  have hne0 : st.editor.text ≠ [] := by
    intro h0
    rcases h3 with h3 | ⟨ds, h3, hv⟩
    · rw [h0] at h3
      have h4 : (Except.ok [] : Except Unit (List Nat)) = .error () := h3
      exact Except.noConfusion h4
    · rw [h0] at h3
      have h4 : (Except.ok [] : Except Unit (List Nat)) = .ok ds := h3
      cases h4
      exact Bool.noConfusion hv
  rw [handle_enter pp st m h1, parse_b64_decode pp st h2]
  rcases h3 with h3 | ⟨ds, h3, hv⟩
  · rw [h3]
    exact ⟨.base64Decode, _, rfl, Or.inl rfl, selectAll_cut_text st.editor,
      selectAll_cut_clipboard st.editor hne0, h1, rfl⟩
  · have hcond : ¬(validUtf8 ds = true) := by simp [hv]
    simp only [h3]
    rw [if_neg hcond]
    exact ⟨.invalidUtf8, _, rfl, Or.inr rfl, selectAll_cut_text st.editor,
      selectAll_cut_clipboard st.editor hne0, h1, rfl⟩

/-- C2 witness: on the concrete state with main buffer `"!"` (not valid
base64) and command line `"base64 decode"`, the amended claim applies. -/
theorem c2_witness :
    stDecodeNotB64.mode = .command ∧ stDecodeNotB64.commandline.text = decodeLine ∧
      b64decode (joinNl (splitNl stDecodeNotB64.editor.text)) = .error () ∧
      (∃ e st1, handle_keyevent ppErr stDecodeNotB64 (enterKey 0) = .err e st1 ∧
        (e = .base64Decode ∨ e = .invalidUtf8) ∧
        st1.editor.text = [] ∧ st1.editor.clipboard = stDecodeNotB64.editor.text ∧
        st1.mode = .command ∧ st1.commandline = stDecodeNotB64.commandline) :=
  ⟨rfl, rfl, rfl,
    c2_decode_failure_empties_buffer ppErr stDecodeNotB64 0 rfl rfl (Or.inl rfl)⟩

/-- C3 counterexample: on the concrete Command-mode state with command line
`"x"`, `Enter` produces the unknown-command error and the state is left
entirely unchanged: the mode does **not** return to Normal and the command
line is **not** cleared (the error propagates before either happens). -/
theorem c3_counterexample :
    handle_keyevent ppErr stUnknown (enterKey 0) = .err (.unknownCommand [120]) stUnknown ∧
      stUnknown.mode = .command ∧ stUnknown.commandline.text = [120] := by
  exact ⟨by decide, rfl, rfl⟩

/-- C3 (amended): on `Esc` in Command mode the command line is cleared via
cursor-to-end + delete-to-head (fully, when it is single-line; the
mechanism preserves the undo history) and the mode returns to Normal; on
`Enter` the same clear and mode change happen only when the command parses
and executes successfully — when parsing fails the error propagates out of
the handler *before* them, so the mode stays Command and the command line
is untouched; for unknown-command failures the whole state (main buffer
included) is exactly unchanged. -/
theorem c3_command_clear_amended (pp : List Nat → Except (List Nat) (List Nat))
    (st : AppState) (m : Nat) (h1 : st.mode = .command) :
    handle_keyevent pp st (escKey m) =
        .ok { st with commandline := clearLine st.commandline, mode := .normal }
      ∧ (st.commandline.cursor ≤ st.commandline.text.length →
          (10 : Nat) ∉ st.commandline.text → (clearLine st.commandline).text = [])
      ∧ (∃ pre, (clearLine st.commandline).undoStack = pre ++ st.commandline.undoStack)
      ∧ (∀ s2, parse_command pp st = .ok s2 →
          handle_keyevent pp st (enterKey m) =
            .ok { s2 with commandline := clearLine s2.commandline, mode := .normal })
      ∧ (∀ e s2, parse_command pp st = .err e s2 →
          handle_keyevent pp st (enterKey m) = .err e s2)
      ∧ (∀ l s2, parse_command pp st = .err (.unknownCommand l) s2 → s2 = st) := by
  refine ⟨handle_esc_command pp st m h1, fun hc hn => clearLine_text _ hc hn,
    clearLine_undo _, ?_, ?_, fun l s2 h => parse_unknown_eq pp st s2 l h⟩
  · intro s2 hs
    rw [handle_enter pp st m h1, hs]
  · intro e s2 hs
    rw [handle_enter pp st m h1, hs]

/-- C3 witness: the amended claim instantiated on the concrete Command-mode
state with command line `"ab"`. -/
theorem c3_witness :
    handle_keyevent ppErr stCmdAb (escKey 0) =
        .ok { stCmdAb with commandline := clearLine stCmdAb.commandline, mode := .normal }
      ∧ (stCmdAb.commandline.cursor ≤ stCmdAb.commandline.text.length →
          (10 : Nat) ∉ stCmdAb.commandline.text → (clearLine stCmdAb.commandline).text = [])
      ∧ (∃ pre, (clearLine stCmdAb.commandline).undoStack = pre ++ stCmdAb.commandline.undoStack)
      ∧ (∀ s2, parse_command ppErr stCmdAb = .ok s2 →
          handle_keyevent ppErr stCmdAb (enterKey 0) =
            .ok { s2 with commandline := clearLine s2.commandline, mode := .normal })
      ∧ (∀ e s2, parse_command ppErr stCmdAb = .err e s2 →
          handle_keyevent ppErr stCmdAb (enterKey 0) = .err e s2)
      ∧ (∀ l s2, parse_command ppErr stCmdAb = .err (.unknownCommand l) s2 → s2 = stCmdAb) :=
  c3_command_clear_amended ppErr stCmdAb 0 rfl

/-- C4: with more than one line queued in the command buffer, `Enter` in
Command mode fails with the "more lines than expected" error and performs
no mutation at all: the result state is exactly the input state. -/
theorem c4_multiline_command_fails (pp : List Nat → Except (List Nat) (List Nat))
    (st : AppState) (m : Nat) (h1 : st.mode = .command)
    (h2 : 1 < (splitNl st.commandline.text).length) :
    handle_keyevent pp st (enterKey m) = .err .moreLines st := by
  rw [handle_enter pp st m h1, parse_moreLines pp st h2]

/-- C4 witness: the concrete Command-mode state whose command buffer holds
two lines. -/
theorem c4_witness :
    stMultiline.mode = .command ∧ 1 < (splitNl stMultiline.commandline.text).length ∧
      handle_keyevent ppErr stMultiline (enterKey 0) = .err .moreLines stMultiline :=
  ⟨rfl, by decide, c4_multiline_command_fails ppErr stMultiline 0 rfl (by decide)⟩

/-- C5: release key events and non-key terminal events are complete
no-ops: the dispatcher returns `Ok` with the state unchanged (mode, main
buffer and command buffer included), whatever the current mode.  (The
external widget's `input` method, to which Insert/Command mode forward
unmatched events, ignores release events.) -/
theorem c5_release_and_nonkey_ignored (pp : List Nat → Except (List Nat) (List Nat))
    (st : AppState) (ev : Event)
    (h : (∃ k, ev = Event.key k ∧ k.kind = .release) ∨ ∃ n, ev = Event.other n) :
    handle_events pp st ev = .ok st := by
  rcases h with ⟨k, rfl, hk⟩ | ⟨n, rfl⟩
  · obtain ⟨code, mods, kind⟩ := k
    obtain rfl : kind = KeyEventKind.release := hk
    obtain ⟨ex, ed, cl, mo⟩ := st
    cases mo with
    | insert => simp [handle_events, handle_keyevent, stepInsert, TextArea.input]
    | normal => simp [handle_events, handle_keyevent, stepNormal]
    | command => simp [handle_events, handle_keyevent, stepCommand, TextArea.input]
    | visual vt => simp [handle_events, handle_keyevent, stepVisual]
  · rfl

/-- C5 witness: a released `l` key and a non-key event on a concrete
Normal-mode state both leave the state unchanged. -/
theorem c5_witness :
    handle_events ppErr stNormalHi (Event.key ⟨.char 108, 0, .release⟩) = .ok stNormalHi ∧
      handle_events ppErr stNormalHi (Event.other 7) = .ok stNormalHi :=
  ⟨c5_release_and_nonkey_ignored ppErr stNormalHi (Event.key ⟨.char 108, 0, .release⟩)
      (Or.inl ⟨⟨.char 108, 0, .release⟩, rfl, rfl⟩),
    c5_release_and_nonkey_ignored ppErr stNormalHi (Event.other 7) (Or.inr ⟨7, rfl⟩)⟩

/-- C6: for every valid-UTF-8 main-buffer text (byte values below 256, as
all `u8` are), running `base64 encode` succeeds and replaces the buffer
with the base64 text, and then running `base64 decode` on any Command-mode
state holding that resulting buffer text succeeds and reproduces the
original text exactly. -/
theorem c6_base64_roundtrip (pp : List Nat → Except (List Nat) (List Nat))
    (st : AppState) (m m2 : Nat) (h1 : st.mode = .command)
    (h2 : st.commandline.text = encodeLine)
    (hb : ∀ b ∈ st.editor.text, b < 256)
    (hv : validUtf8 st.editor.text = true) :
    ∃ st1, handle_keyevent pp st (enterKey m) = .ok st1 ∧
      st1.editor.text = b64encode st.editor.text ∧
      ∀ st2, st2.mode = .command → st2.commandline.text = decodeLine →
        st2.editor.text = st1.editor.text →
        ∃ st3, handle_keyevent pp st2 (enterKey m2) = .ok st3 ∧
          st3.editor.text = st.editor.text := by
  have hfirst :
      ((st.editor.selectAll.cut).insertStr
        (b64encode (joinNl (splitNl st.editor.text)))).text = b64encode st.editor.text := by
    rw [cutAll_insertStr_text, joinNl_splitNl]
  rw [handle_enter pp st m h1, parse_b64_encode pp st h2]
  refine ⟨_, rfl, hfirst, ?_⟩
  intro st2 hm2 hc2 he2
  have htext : st2.editor.text = b64encode st.editor.text := by
    rw [he2]
    exact hfirst
  have hdec : b64decode (joinNl (splitNl st2.editor.text)) = .ok st.editor.text := by
    rw [joinNl_splitNl, htext]
    exact b64_roundtrip st.editor.text hb
  rw [handle_enter pp st2 m2 hm2, parse_b64_decode pp st2 hc2]
  simp only [hdec]
  rw [if_pos hv]
  exact ⟨_, rfl, cutAll_insertStr_text st2.editor st.editor.text⟩

/-- C6 witness: the round trip instantiated on the concrete state whose
main buffer holds `"hi"`. -/
theorem c6_witness :
    stEncodeHi.mode = .command ∧ stEncodeHi.commandline.text = encodeLine ∧
      (∀ b ∈ stEncodeHi.editor.text, b < 256) ∧ validUtf8 stEncodeHi.editor.text = true ∧
      (∃ st1, handle_keyevent ppErr stEncodeHi (enterKey 0) = .ok st1 ∧
        st1.editor.text = b64encode stEncodeHi.editor.text ∧
        ∀ st2, st2.mode = .command → st2.commandline.text = decodeLine →
          st2.editor.text = st1.editor.text →
          ∃ st3, handle_keyevent ppErr st2 (enterKey 0) = .ok st3 ∧
            st3.editor.text = stEncodeHi.editor.text) :=
  ⟨rfl, rfl, by decide, rfl,
    c6_base64_roundtrip ppErr stEncodeHi 0 0 rfl rfl (by decide) rfl⟩

/-- C7: from the initial state (mode Insert, `should_exit` false), `Esc`
moves to Normal, then `;` (or `<space>`) moves to Command, typing `q` and
pressing `Enter` sets `should_exit = true`, and the next loop iteration
terminates: `run` returns `exited` without consuming any further event. -/
theorem c7_quit_scenario :
    ∃ s1, handle_events ppErr initialApp (.key (escKey 0)) = .ok s1 ∧ s1.mode = .normal ∧
      (∃ s2a, handle_events ppErr s1 (.key (keyPress 32)) = .ok s2a ∧ s2a.mode = .command) ∧
      ∃ s2, handle_events ppErr s1 (.key (keyPress 59)) = .ok s2 ∧ s2.mode = .command ∧
        ∃ s3, handle_events ppErr s2 (.key (keyPress 113)) = .ok s3 ∧
          ∃ s4, handle_events ppErr s3 (.key (enterKey 0)) = .ok s4 ∧
            s4.should_exit = true ∧ ∀ evs, run ppErr s4 evs = .exited s4 := by
  refine ⟨_, rfl, rfl, ⟨_, rfl, rfl⟩, _, rfl, rfl, _, rfl, _, rfl, rfl, ?_⟩
  exact run_exits_now ppErr _ rfl

/-- C8: in `Visual(Line)` and `Visual(Block)` the motion keys `h`, `j`,
`k`, `l`, `b`, `w` are no-ops: the handler returns `Ok` with the state
unchanged (mode, main buffer and command buffer included). -/
theorem c8_visual_line_block_noop (pp : List Nat → Except (List Nat) (List Nat))
    (st : AppState) (vt : VisualType) (e : KeyEventM) (h1 : st.mode = .visual vt)
    (h2 : vt = .line ∨ vt = .block) (h3 : e.kind = .press)
    (h4 : e.code = .char 104 ∨ e.code = .char 106 ∨ e.code = .char 107 ∨
      e.code = .char 108 ∨ e.code = .char 98 ∨ e.code = .char 119) :
    handle_keyevent pp st e = .ok st := by
  obtain ⟨code, mods, kind⟩ := e
  obtain rfl : kind = KeyEventKind.press := h3
  simp only [handle_keyevent, h1]
  rcases h2 with rfl | rfl <;>
    rcases h4 with h4 | h4 | h4 | h4 | h4 | h4 <;>
      (cases h4; simp [stepVisual])

/-- C8 witness: `h` pressed in a concrete `Visual(Line)` state leaves the
state unchanged. -/
theorem c8_witness :
    stVisualLine.mode = .visual .line ∧
      handle_keyevent ppErr stVisualLine ⟨.char 104, 0, .press⟩ = .ok stVisualLine :=
  ⟨rfl, c8_visual_line_block_noop ppErr stVisualLine .line ⟨.char 104, 0, .press⟩ rfl
    (Or.inl rfl) rfl (Or.inl rfl)⟩

/-- C9 counterexample: `should_exit` is not the sole loop-termination
signal — on the concrete Command-mode state with the unknown command
`"zz"` queued, the loop stops (with the propagated error) while
`should_exit` is still `false`. -/
theorem c9_counterexample :
    run ppErr stUnknownZz [Event.key (enterKey 0)] =
        .failed (.unknownCommand [122, 122]) stUnknownZz ∧
      stUnknownZz.should_exit = false :=
  ⟨by decide, rfl⟩

/-- C9 (amended): `should_exit` changes value only from `false` to `true`,
and only when the mode is Command, the event is an `Enter` key press and
the first whitespace-delimited token of the command line is `q`; the loop
returns `Ok` (`exited`) only with `should_exit = true`; but `should_exit`
is *not* the sole termination signal: a command error propagating out of
the event handler also stops the loop, with `should_exit` still `false`. -/
theorem c9_should_exit_amended (pp : List Nat → Except (List Nat) (List Nat))
    (st st1 : AppState) (ev : Event) (evs : List Event)
    (h : handle_events pp st ev = .ok st1 ∨ ∃ e, handle_events pp st ev = .err e st1) :
    (st1.should_exit ≠ st.should_exit →
      st.should_exit = false ∧ st1.should_exit = true ∧ st.mode = .command ∧
        (∃ k, ev = Event.key k ∧ k.code = .enter ∧ k.kind = .press) ∧
        firstTok ((splitNl st.commandline.text).headD []) = qCmd)
    ∧ (∀ stf, run pp st evs = .exited stf → stf.should_exit = true)
    ∧ (∃ st0 e stf, run pp st0 [Event.key (enterKey 0)] = .failed e stf ∧
        stf.should_exit = false) := by
  refine ⟨fun hne => handle_exit_change pp st ev st1 h hne,
    fun stf hf => run_exited pp evs st stf hf, ?_⟩
  exact ⟨⟨false, mkTA [104] 0, mkTA [120, 120] 0, .command⟩, .unknownCommand [120, 120],
    ⟨false, mkTA [104] 0, mkTA [120, 120] 0, .command⟩, rfl, rfl⟩

/-- C9 witness: the amended claim instantiated on a concrete Command-mode
state (with a non-key event, whose step satisfies the hypothesis
trivially). -/
theorem c9_witness :
    (handle_events ppErr stCmdW9 (Event.other 3) = .ok stCmdW9 ∨
        ∃ e, handle_events ppErr stCmdW9 (Event.other 3) = .err e stCmdW9) ∧
      ((stCmdW9.should_exit ≠ stCmdW9.should_exit →
        stCmdW9.should_exit = false ∧ stCmdW9.should_exit = true ∧ stCmdW9.mode = .command ∧
          (∃ k, Event.other 3 = Event.key k ∧ k.code = .enter ∧ k.kind = .press) ∧
          firstTok ((splitNl stCmdW9.commandline.text).headD []) = qCmd)
      ∧ (∀ stf, run ppErr stCmdW9 [] = .exited stf → stf.should_exit = true)
      ∧ (∃ st0 e stf, run ppErr st0 [Event.key (enterKey 0)] = .failed e stf ∧
          stf.should_exit = false)) :=
  ⟨Or.inl rfl,
    c9_should_exit_amended ppErr stCmdW9 stCmdW9 (Event.other 3) [] (Or.inl rfl)⟩

/-- C10: `Enter` in Command mode with an empty command line is not a
no-op: the empty first token takes the unknown-command path, the handler
returns the `unknown command` error carrying the original empty line, and
it propagates exactly like any other unrecognized verb (the state is left
unchanged). -/
theorem c10_empty_command_unknown (pp : List Nat → Except (List Nat) (List Nat))
    (st : AppState) (m : Nat) (h1 : st.mode = .command)
    (h2 : st.commandline.text = []) :
    handle_keyevent pp st (enterKey m) = .err (.unknownCommand []) st := by
  rw [handle_enter pp st m h1, parse_empty_line pp st h2]

/-- C10 witness: the concrete Command-mode state with an empty command
line. -/
theorem c10_witness :
    stEmptyCmd.mode = .command ∧ stEmptyCmd.commandline.text = [] ∧
      handle_keyevent ppErr stEmptyCmd (enterKey 0) = .err (.unknownCommand []) stEmptyCmd :=
  ⟨rfl, rfl, c10_empty_command_unknown ppErr stEmptyCmd 0 rfl rfl⟩

end Gloop
